import Mathlib

/-!
Verification of the image ingestion pipeline and the deletion cleanup of an
illustration-sharing web application (Flask + Pillow).

The development shallowly embeds `image_service.py` (extension gate, MIME gate,
decode/verify, dimension guard, store, thumbnail generation) and the file-cleanup
part of the `delete` route of `app.py`.

Modelling conventions:
* Python strings are Lean `String`s; the inputs appearing in concrete theorems
  are ASCII, where the model of `str.lower`, `str.strip` and of werkzeug's
  `secure_filename` is exact.
* The byte stream handed to Pillow is represented by the outcome of
  `PIL.Image.open` + `verify` on it: `none` when decoding/verification raises,
  `some img` when it yields a decoded image with a width, a height and a mode.
* Filesystem effects are made explicit: the pipeline returns, next to the
  Python return value, the ordered list of filesystem operations it performed.
  An environment record says which fallible external operations
  (`os.makedirs`, `Image.save`) succeed in the run under consideration.
* An uncaught Python exception is the `PyResult.exn` outcome.
-/

namespace IllustShare

/-- ASCII whitespace recognized by Python `str.split()` / `str.strip()`
(the concrete inputs used below are ASCII, where this is exact). -/
def isPySpace (c : Char) : Bool :=
  c = ' ' ∨ c = '\t' ∨ c = '\n' ∨ c = '\r' ∨ c = '\x0b' ∨ c = '\x0c'

/-- `headMatches pat cs`: `pat` is an initial segment of `cs` (structural, so
that it reduces inside the kernel, unlike `String.substrEq`). -/
def headMatches : List Char → List Char → Bool
  | [], _ => true
  | _ :: _, [] => false
  | c :: cs, d :: ds => if c = d then headMatches cs ds else false

/-- Python `s.startswith(pre)`. -/
def pyStartsWith (s pre : String) : Bool :=
  headMatches pre.toList s.toList

/-- Python `s.endswith(suf)`. -/
def pyEndsWith (s suf : String) : Bool :=
  headMatches suf.toList.reverse s.toList.reverse

/-- Python `str.lower` on an ASCII character (other characters are returned
unchanged; no non-ASCII lowercasing can produce the ASCII extension strings
compared against below). -/
def asciiLower (c : Char) : Char :=
  if 'A' ≤ c ∧ c ≤ 'Z' then Char.ofNat (c.toNat + 32) else c

/-- Python `str.lower` lifted to strings (ASCII model). -/
def lowerStr (s : String) : String :=
  String.mk (s.toList.map asciiLower)

/-- `s.rsplit(".", 1)[1]`: the characters after the last `'.'` of `s`
(meaningful when `s` contains a `'.'`). -/
def rsplitDot (s : String) : String :=
  String.mk ((s.toList.reverse.takeWhile (· ≠ '.')).reverse)

/-- Python truthiness of an optional string (`None` and `""` are falsy). -/
def pyTruthy : Option String → Bool
  | none => false
  | some s => ¬ s.isEmpty

/-- Python `a or b` on optional strings. -/
def pyOr (a b : Option String) : Option String :=
  if pyTruthy a then a else b

/-- `not s.strip()`: the string has no non-whitespace character. -/
def blankStr (s : String) : Bool :=
  s.toList.all isPySpace

/-- One fused pass computing `"_".join(cs.split())` (split on whitespace runs,
dropping empty fields, then rejoin with a single underscore).  The flag says
whether the previous character belonged to a word. -/
def squash (inWord : Bool) : List Char → List Char
  | [] => []
  | c :: cs =>
    if isPySpace c then
      let r := squash false cs
      if inWord ∧ r ≠ [] then '_' :: r else r
    else
      c :: squash true cs

/-- Characters kept by werkzeug's `re.sub(r"[^A-Za-z0-9_.-]", "", ·)`. -/
def keepChar (c : Char) : Bool :=
  c.isAlphanum ∨ c = '_' ∨ c = '.' ∨ c = '-'

/-- Characters removed at both ends by `.strip("._")`. -/
def stripChar (c : Char) : Bool :=
  c = '.' ∨ c = '_'

/-- `werkzeug.utils.secure_filename` on a POSIX host (`os.sep = "/"`,
`os.path.altsep = None`, `os.name ≠ "nt"`, so the Windows device-file branch is
dead).  The `unicodedata.normalize("NFKD", ·).encode("ascii", "ignore")` step is
modelled as dropping non-ASCII characters, which is exact on ASCII input. -/
def secure_filename (filename : String) : String :=
  let ascii := filename.toList.filter (fun c => c.toNat < 128)
  let replaced := ascii.map (fun c => if c = '/' then ' ' else c)
  let joined := squash false replaced
  let kept := joined.filter keepChar
  let stripped := ((kept.dropWhile stripChar).reverse.dropWhile stripChar).reverse
  String.mk stripped

/-- `posixpath.splitext`: split off the extension at the last `'.'` of the last
path component, unless every character of that component before this dot is
itself a dot (so `".png"` has no extension). -/
def splitext (p : String) : String × String :=
  let cs := p.toList
  let base := (cs.reverse.takeWhile (· ≠ '/')).reverse
  let dirlen := cs.length - base.length
  let afterDot := base.reverse.takeWhile (· ≠ '.')
  if afterDot.length = base.length then (p, "")
  else
    let dotPos := base.length - afterDot.length - 1
    if (base.take dotPos).all (· = '.') then (p, "")
    else (String.mk (cs.take (dirlen + dotPos)), String.mk (cs.drop (dirlen + dotPos)))

/-- `posixpath.join` on two components. -/
def pathJoin (a b : String) : String :=
  if pyStartsWith b "/" then b
  else if a = "" ∨ pyEndsWith a "/" then a ++ b
  else a ++ "/" ++ b

/-! ## The data of the pipeline -/

/-- A decoded in-memory bitmap: what Pillow's second `Image.open` yields
(`image.width`, `image.height`, `image.mode`). -/
structure DecodedImage where
  width : Nat
  height : Nat
  mode : String
deriving DecidableEq, Repr

/-- The uploaded `FileStorage` object.  `filename`, `content_type` and
`mimetype` are its homonymous attributes (`none` for a missing or `None`
attribute).  `stream` is the decode outcome of its byte stream under Pillow
`open` + `verify` + reopen: `none` when that raises, `some img` otherwise. -/
structure FileStorage where
  filename : Option String
  content_type : Option String
  mimetype : Option String
  stream : Option DecodedImage
deriving DecidableEq, Repr

/-- Which fallible external calls succeed in the run under consideration, plus
the random token drawn by `uuid.uuid4().hex`. -/
structure PipelineEnv where
  token : String
  mkdirOk : Bool
  saveOk : Bool
  thumbMkdirOk : Bool
  thumbSaveOk : Bool
deriving DecidableEq, Repr

/-- A filesystem operation performed by the pipeline.  A written file records
the image actually handed to `Image.save` (after any mode conversion). -/
inductive FsOp where
  | makedirs (path : String)
  | writeFile (path : String) (img : DecodedImage)
deriving DecidableEq, Repr

/-- Outcome of a Python call: a returned `(filename, error)` pair, or an
exception escaping to the caller. -/
inductive PyResult where
  | ok (filename : Option String) (error : Option String)
  | exn
deriving DecidableEq, Repr

/-! ## `image_service.py` -/

/-- `ALLOWED_EXTENSIONS = {"png", "jpg", "jpeg", "gif", "webp"}`. -/
def ALLOWED_EXTENSIONS : List String := ["png", "jpg", "jpeg", "gif", "webp"]

/-- `DEFAULT_MAX_DIMENSIONS = (4000, 4000)`. -/
def DEFAULT_MAX_DIMENSIONS : Nat × Nat := (4000, 4000)

/-- `DEFAULT_THUMBNAIL_SIZE = (300, 300)`. -/
def DEFAULT_THUMBNAIL_SIZE : Nat × Nat := (300, 300)

/-- `allowed_file` of `image_service.py`. -/
def allowed_file (filename : String) : Bool :=
  if filename.isEmpty ∨ ¬ filename.toList.contains '.' then false
  else ALLOWED_EXTENSIONS.contains (lowerStr (rsplitDot filename))

/-- `_ensure_saveable_mode` of `image_service.py`: convert `RGBA`/`P` to `RGB`,
pass anything else through. -/
def ensure_saveable_mode (image : DecodedImage) : DecodedImage :=
  if image.mode = "RGBA" ∨ image.mode = "P" then { image with mode := "RGB" } else image

/-- External `PIL.Image.thumbnail`: bounded-box, aspect-preserving downscale
that never upscales and preserves the color mode.  Pillow rounds the reduced
dimensions with floating point; the exact reduced width/height is irrelevant to
every theorem below (only the mode field is used), so an integer-division
approximation of the fit is used. -/
def pilThumbnail (img : DecodedImage) (size : Nat × Nat) : DecodedImage :=
  if size.1 ≥ img.width ∧ size.2 ≥ img.height then img
  else if img.width * size.2 ≥ img.height * size.1 then
    { img with width := size.1, height := max 1 (img.height * size.1 / img.width) }
  else
    { img with width := max 1 (img.width * size.2 / img.height), height := size.2 }

/-- The extensions under which `Image.save` can derive a format at this
pipeline's save sites.  Called with no `format=` argument, Pillow lowercases
the path's `splitext` extension and looks it up in its registry, raising
`ValueError` before touching the filesystem when the extension is missing or
unregistered.  Pillow registers more extensions than these, but every path this
pipeline can build carries one of these extensions or none (the extension is
produced by `secure_filename` + `splitext` from a gate-passing name). -/
def PIL_SAVE_EXTENSIONS : List String := [".png", ".jpg", ".jpeg", ".gif", ".webp"]

/-- Whether `Image.save(path)` can derive an output format from `path`:
the lowercased `splitext` extension is registered.  When this is false, the
save raises `ValueError` deterministically, regardless of the environment. -/
def pilSaveFormatKnown (path : String) : Bool :=
  lowerStr (splitext path).2 ∈ PIL_SAVE_EXTENSIONS

/-- `create_thumbnail` of `image_service.py`.  Returns the Python outcome
(`.error ()` when an exception is raised partway) together with the filesystem
operations actually performed before any such exception.  `thumb.save` fails
deterministically when no format can be derived from the path, and otherwise
per the environment. -/
def create_thumbnail (env : PipelineEnv) (image : DecodedImage)
    (thumbnail_dir : String) (filename : String) (size : Nat × Nat) :
    Except Unit Unit × List FsOp :=
  if ¬ env.thumbMkdirOk then (.error (), [])
  else
    let thumbnail_path := pathJoin thumbnail_dir filename
    let thumb := pilThumbnail image size
    let thumb := if thumb.mode = "RGBA" ∨ thumb.mode = "P" then { thumb with mode := "RGB" } else thumb
    if ¬ (pilSaveFormatKnown thumbnail_path ∧ env.thumbSaveOk) then
      (.error (), [FsOp.makedirs thumbnail_dir])
    else (.ok (), [FsOp.makedirs thumbnail_dir, FsOp.writeFile thumbnail_path thumb])

/-- The mimetype gate condition of `process_uploaded_image`:
`mimetype and mimetype.startswith("image/")` where
`mimetype = getattr(fs, "content_type", None) or getattr(fs, "mimetype", None)`. -/
def mimeOk (fs : FileStorage) : Bool :=
  let m := pyOr fs.content_type fs.mimetype
  pyTruthy m ∧ pyStartsWith (m.getD "") "image/"

/-- Error message `"画像ファイルが選択されていません"`. -/
def MSG_NO_FILE : String := "画像ファイルが選択されていません"

/-- Error message for a disallowed extension. -/
def MSG_BAD_EXT : String := "画像ファイル（png,jpg,jpeg,gif,webp）をアップロードしてください"

/-- Error message for a non-`image/` content type. -/
def MSG_BAD_MIME : String := "画像ファイルをアップロードしてください"

/-- Error message for an undecodable image; also returned verbatim by the
`except` branch around `_save_image`. -/
def MSG_INVALID : String := "有効な画像ファイルをアップロードしてください"

/-- The f-string `f"画像のサイズが大きすぎます（最大 {max_w}x{max_h}）。"`. -/
def sizeErrorMsg (max_w max_h : Nat) : String :=
  "画像のサイズが大きすぎます（最大 " ++ (Nat.repr max_w ++ "x" ++ Nat.repr max_h) ++ "）。"

/-- `process_uploaded_image` of `image_service.py`.  Returns the Python outcome
together with the ordered filesystem operations performed.  `env` fixes the
`uuid4` token and which fallible external calls succeed; `file_storage = none`
is a `None` argument.  The primary `_save_image` raises deterministically
(caught at line 112) when `Image.save` cannot derive a format from the
destination path, and otherwise per `env.saveOk`. -/
def process_uploaded_image (env : PipelineEnv) (file_storage : Option FileStorage)
    (upload_base_dir : String) (max_dimensions : Nat × Nat)
    (thumbnail_size : Nat × Nat) : PyResult × List FsOp :=
  match file_storage with
  | none => (.ok none (some MSG_NO_FILE), [])
  | some fs =>
    let filename_original := fs.filename.getD ""
    if blankStr filename_original then (.ok none (some MSG_NO_FILE), [])
    else if ¬ allowed_file filename_original then (.ok none (some MSG_BAD_EXT), [])
    else if ¬ mimeOk fs then (.ok none (some MSG_BAD_MIME), [])
    else
      let safe_name := secure_filename filename_original
      let ext := (splitext safe_name).2
      let filename := env.token ++ ext
      let filepath := pathJoin upload_base_dir filename
      match fs.stream with
      | none => (.ok none (some MSG_INVALID), [])
      | some image =>
        if image.width > max_dimensions.1 ∨ image.height > max_dimensions.2 then
          (.ok none (some (sizeErrorMsg max_dimensions.1 max_dimensions.2)), [])
        else if ¬ env.mkdirOk then (.exn, [])
        else if ¬ (pilSaveFormatKnown filepath ∧ env.saveOk) then
          (.ok none (some MSG_INVALID), [FsOp.makedirs upload_base_dir])
        else
          let thumbnail_dir := pathJoin upload_base_dir "thumbs"
          let tops := (create_thumbnail env image thumbnail_dir filename thumbnail_size).2
          (.ok (some filename) none,
            FsOp.makedirs upload_base_dir
              :: FsOp.writeFile filepath (ensure_saveable_mode image)
              :: tops)

/-- The conjunction of the three gate conditions of `process_uploaded_image`
(non-blank filename, allowed extension, `image/` content type). -/
def gatePass (fs : FileStorage) : Bool :=
  ¬ blankStr (fs.filename.getD "") ∧ allowed_file (fs.filename.getD "") ∧ mimeOk fs

/-! ## The `delete` route of `app.py` (post-deletion file cleanup) -/

/-- The row `SELECT user_id, filename FROM posts WHERE id=?` yields. -/
structure PostRow where
  user_id : Int
  filename : String
deriving DecidableEq, Repr

/-- Outcome of the `delete` route stripped of rendering detail. -/
inductive DeleteOutcome where
  | redirectHome
  | httpError
  | deleted
deriving DecidableEq, Repr

/-- One iteration of the cleanup loop of `delete`:
`if path and os.path.exists(path): try: os.remove(path) except: log`.
The filesystem is the list of existing paths; `removeFails` lists the paths for
which `os.remove` raises (the exception is caught and logged). -/
def removeStep (removeFails : List String) (fs : List String) (path : String) : List String :=
  if path ≠ "" ∧ path ∈ fs then
    if path ∈ removeFails then fs else fs.filter (· ≠ path)
  else fs

/-- The `delete` route of `app.py` (source symbol `delete`), from the row
lookup on: missing row redirects home; a requester who is neither the owner nor
`admin` gets an HTTP error; otherwise both the full-size path and the thumbs
path are attempted (each `os.remove` failure caught and logged) and then the
post record is deleted.  Returns the outcome (`.deleted` meaning the DB record
was deleted) and the resulting filesystem. -/
def deleteRoute (current_user_id : Int) (current_username : String)
    (row : Option PostRow) (removeFails : List String) (fs0 : List String) :
    DeleteOutcome × List String :=
  match row with
  | none => (.redirectHome, fs0)
  | some r =>
    if current_user_id ≠ r.user_id ∧ current_username ≠ "admin" then (.httpError, fs0)
    else
      let p1 := pathJoin (pathJoin "static" "uploads") r.filename
      let p2 := pathJoin (pathJoin (pathJoin "static" "uploads") "thumbs") r.filename
      (.deleted, removeStep removeFails (removeStep removeFails fs0 p1) p2)

/-! ## Spec-side definitions and concrete fixtures -/

/-- Exactly one component of a returned `(filename, error)` pair is populated;
an uncaught exception has no such pair at all. -/
def exclusiveResult : PyResult → Prop
  | .ok f e => (f.isSome ∧ e = none) ∨ (f = none ∧ e.isSome)
  | .exn => False

/-- The spec's class of modes requiring conversion before a universal lossy
encode: indexed-palette (`P`, `PA`) or alpha-channel (`RGBA`, `RGBa`, `LA`,
`La`, `PA`) modes.  Refinement target, written from the spec's words. -/
def paletteOrAlphaMode (m : String) : Bool :=
  m ∈ (["P", "PA", "RGBA", "RGBa", "LA", "La"] : List String)

/-- The ASCII-lowered letters occurring in the allowed extensions
(`png`, `jpg`, `jpeg`, `gif`, `webp`). -/
def extLetters : List Char := ['p', 'n', 'g', 'j', 'e', 'i', 'f', 'w', 'b']

/-- All external calls succeed; `uuid4().hex` drew `"deadbeef"`. -/
def envOk : PipelineEnv := ⟨"deadbeef", true, true, true, true⟩

/-- `os.makedirs(upload_base_dir)` fails (e.g. the path is occupied by a file). -/
def envNoMkdir : PipelineEnv := ⟨"deadbeef", false, true, true, true⟩

/-- The primary `Image.save` fails. -/
def envNoSave : PipelineEnv := ⟨"deadbeef", true, false, true, true⟩

/-- Creating the thumbs directory fails (e.g. upload root unwritable from here on). -/
def envNoThumb : PipelineEnv := ⟨"deadbeef", true, true, false, true⟩

/-- A well-formed upload: PNG name, `image/png` content type, decodable 50×50 RGB. -/
def fsGood : FileStorage := ⟨some "a.png", some "image/png", none, some ⟨50, 50, "RGB"⟩⟩

/-- Claims to be a PNG but its bytes do not decode. -/
def fsBadStream : FileStorage := ⟨some "a.png", some "image/png", none, none⟩

/-- A valid image whose claimed filename is just `".png"`. -/
def fsDotPng : FileStorage := ⟨some ".png", some "image/png", none, some ⟨50, 50, "RGB"⟩⟩

/-- A valid image decoding to the grayscale-plus-alpha mode `LA`. -/
def fsLA : FileStorage := ⟨some "a.png", some "image/png", none, some ⟨50, 50, "LA"⟩⟩

/-- A valid image decoding to the alpha mode `RGBA`. -/
def fsRGBA : FileStorage := ⟨some "a.png", some "image/png", none, some ⟨50, 50, "RGBA"⟩⟩

/-- A `.txt` name with a `text/plain` content type over perfectly valid image bytes. -/
def fsTxt : FileStorage := ⟨some "x.txt", some "text/plain", none, some ⟨50, 50, "RGB"⟩⟩

/-- A valid image larger than the default bound. -/
def fsBig : FileStorage := ⟨some "a.png", some "image/png", none, some ⟨5000, 50, "RGB"⟩⟩

/-! ## Stage lemmas for `process_uploaded_image` -/

theorem process_arg_none (env : PipelineEnv) (d : String) (md ts : Nat × Nat) :
    process_uploaded_image env none d md ts = (.ok none (some MSG_NO_FILE), []) := rfl

theorem process_blank (env : PipelineEnv) (fs : FileStorage) (d : String) (md ts : Nat × Nat)
    (h : blankStr (fs.filename.getD "") = true) :
    process_uploaded_image env (some fs) d md ts = (.ok none (some MSG_NO_FILE), []) := by
  simp [process_uploaded_image, h]

theorem process_bad_ext (env : PipelineEnv) (fs : FileStorage) (d : String) (md ts : Nat × Nat)
    (h1 : blankStr (fs.filename.getD "") = false)
    (h2 : allowed_file (fs.filename.getD "") = false) :
    process_uploaded_image env (some fs) d md ts = (.ok none (some MSG_BAD_EXT), []) := by
  simp [process_uploaded_image, h1, h2]

theorem process_bad_mime (env : PipelineEnv) (fs : FileStorage) (d : String) (md ts : Nat × Nat)
    (h1 : blankStr (fs.filename.getD "") = false)
    (h2 : allowed_file (fs.filename.getD "") = true)
    (h3 : mimeOk fs = false) :
    process_uploaded_image env (some fs) d md ts = (.ok none (some MSG_BAD_MIME), []) := by
  simp [process_uploaded_image, h1, h2, h3]

/-- Unfold the gate conjunction. -/
theorem gatePass_iff (fs : FileStorage) :
    gatePass fs = true ↔
      blankStr (fs.filename.getD "") = false ∧
      allowed_file (fs.filename.getD "") = true ∧ mimeOk fs = true := by
  simp [gatePass]

theorem process_decode_fail (env : PipelineEnv) (fs : FileStorage) (d : String) (md ts : Nat × Nat)
    (hg : gatePass fs = true) (hs : fs.stream = none) :
    process_uploaded_image env (some fs) d md ts = (.ok none (some MSG_INVALID), []) := by
  obtain ⟨h1, h2, h3⟩ := (gatePass_iff fs).mp hg
  simp [process_uploaded_image, h1, h2, h3, hs]

theorem process_size_reject (env : PipelineEnv) (fs : FileStorage) (img : DecodedImage)
    (d : String) (md ts : Nat × Nat)
    (hg : gatePass fs = true) (hs : fs.stream = some img)
    (hdim : img.width > md.1 ∨ img.height > md.2) :
    process_uploaded_image env (some fs) d md ts =
      (.ok none (some (sizeErrorMsg md.1 md.2)), []) := by
  obtain ⟨h1, h2, h3⟩ := (gatePass_iff fs).mp hg
  simp [process_uploaded_image, h1, h2, h3, hs, hdim]

theorem process_mkdir_exn (env : PipelineEnv) (fs : FileStorage) (img : DecodedImage)
    (d : String) (md ts : Nat × Nat)
    (hg : gatePass fs = true) (hs : fs.stream = some img)
    (hw : img.width ≤ md.1) (hh : img.height ≤ md.2)
    (hmk : env.mkdirOk = false) :
    process_uploaded_image env (some fs) d md ts = (.exn, []) := by
  obtain ⟨h1, h2, h3⟩ := (gatePass_iff fs).mp hg
  simp [process_uploaded_image, h1, h2, h3, hs, hmk, Nat.not_lt.mpr hw, Nat.not_lt.mpr hh]

theorem process_save_fail (env : PipelineEnv) (fs : FileStorage) (img : DecodedImage)
    (d : String) (md ts : Nat × Nat)
    (hg : gatePass fs = true) (hs : fs.stream = some img)
    (hw : img.width ≤ md.1) (hh : img.height ≤ md.2)
    (hmk : env.mkdirOk = true)
    (hsv : pilSaveFormatKnown
        (pathJoin d (env.token ++ (splitext (secure_filename (fs.filename.getD ""))).2)) = false
      ∨ env.saveOk = false) :
    process_uploaded_image env (some fs) d md ts =
      (.ok none (some MSG_INVALID), [FsOp.makedirs d]) := by
  obtain ⟨h1, h2, h3⟩ := (gatePass_iff fs).mp hg
  rcases hsv with hsv | hsv <;>
    simp [process_uploaded_image, h1, h2, h3, hs, hmk, hsv, Nat.not_lt.mpr hw, Nat.not_lt.mpr hh]

theorem process_success (env : PipelineEnv) (fs : FileStorage) (img : DecodedImage)
    (d : String) (md ts : Nat × Nat)
    (hg : gatePass fs = true) (hs : fs.stream = some img)
    (hw : img.width ≤ md.1) (hh : img.height ≤ md.2)
    (hmk : env.mkdirOk = true)
    (hfmt : pilSaveFormatKnown
        (pathJoin d (env.token ++ (splitext (secure_filename (fs.filename.getD ""))).2)) = true)
    (hsv : env.saveOk = true) :
    process_uploaded_image env (some fs) d md ts =
      (.ok (some (env.token ++ (splitext (secure_filename (fs.filename.getD ""))).2)) none,
        FsOp.makedirs d
          :: FsOp.writeFile
              (pathJoin d (env.token ++ (splitext (secure_filename (fs.filename.getD ""))).2))
              (ensure_saveable_mode img)
          :: (create_thumbnail env img (pathJoin d "thumbs")
              (env.token ++ (splitext (secure_filename (fs.filename.getD ""))).2) ts).2) := by
  obtain ⟨h1, h2, h3⟩ := (gatePass_iff fs).mp hg
  simp [process_uploaded_image, h1, h2, h3, hs, hmk, hfmt, hsv, Nat.not_lt.mpr hw,
    Nat.not_lt.mpr hh]

/-! ## Message-distinctness helpers -/

/-- The size-exceeded message splits into the fixed head and the rest. -/
theorem sizeErrorMsg_data (w h : Nat) :
    (sizeErrorMsg w h).data =
      ("画像のサイズが大きすぎます（最大 ").data ++
        ((Nat.repr w ++ "x" ++ Nat.repr h).data ++ ("）。").data) := by
  rw [sizeErrorMsg, String.data_append, String.data_append, List.append_assoc]

/-- Third character of the size-exceeded message, whatever the bounds. -/
theorem sizeErrorMsg_third_char (w h : Nat) : (sizeErrorMsg w h).data[2]? = some 'の' := by
  rw [sizeErrorMsg_data, List.getElem?_append_left (by decide)]
  rfl

/-- The size-exceeded message differs from any string whose third character is
not `'の'`, whatever the configured bounds. -/
theorem sizeErrorMsg_ne (w h : Nat) (t : String) (ht : t.data[2]? ≠ some 'の') :
    sizeErrorMsg w h ≠ t :=
  fun he => ht (he ▸ sizeErrorMsg_third_char w h)

/-! ## C1 — result shape and the uncaught `os.makedirs` exception -/

/-- C1, counterexample: `os.makedirs(upload_base_dir, exist_ok=True)` sits
outside every `try` block, so when it fails (here: on a well-formed upload)
`process_uploaded_image` raises to the caller instead of returning a pair. -/
theorem process_raises_on_makedirs_failure :
    (process_uploaded_image envNoMkdir (some fsGood) "static/uploads" (4000, 4000)
      (300, 300)).1 = .exn := rfl

/-- C1, amended: in every run in which creating the upload directory succeeds,
`process_uploaded_image` returns a pair with exactly one populated component
and raises nothing. -/
theorem process_result_exclusive (env : PipelineEnv) (fsOpt : Option FileStorage)
    (d : String) (md ts : Nat × Nat) (hmk : env.mkdirOk = true) :
    exclusiveResult (process_uploaded_image env fsOpt d md ts).1 := by
  match fsOpt with
  | none =>
    rw [process_arg_none]
    exact Or.inr ⟨rfl, rfl⟩
  | some fs =>
    cases h1 : blankStr (fs.filename.getD "") with
    | true =>
      rw [process_blank env fs d md ts h1]
      exact Or.inr ⟨rfl, rfl⟩
    | false =>
      cases h2 : allowed_file (fs.filename.getD "") with
      | false =>
        rw [process_bad_ext env fs d md ts h1 h2]
        exact Or.inr ⟨rfl, rfl⟩
      | true =>
        cases h3 : mimeOk fs with
        | false =>
          rw [process_bad_mime env fs d md ts h1 h2 h3]
          exact Or.inr ⟨rfl, rfl⟩
        | true =>
          have hg : gatePass fs = true := (gatePass_iff fs).mpr ⟨h1, h2, h3⟩
          cases hs : fs.stream with
          | none =>
            rw [process_decode_fail env fs d md ts hg hs]
            exact Or.inr ⟨rfl, rfl⟩
          | some img =>
            by_cases hdim : img.width > md.1 ∨ img.height > md.2
            · rw [process_size_reject env fs img d md ts hg hs hdim]
              exact Or.inr ⟨rfl, rfl⟩
            · push_neg at hdim
              obtain ⟨hw, hh⟩ := hdim
              cases hfk : pilSaveFormatKnown
                  (pathJoin d (env.token ++
                    (splitext (secure_filename (fs.filename.getD ""))).2)) with
              | false =>
                rw [process_save_fail env fs img d md ts hg hs hw hh hmk (Or.inl hfk)]
                exact Or.inr ⟨rfl, rfl⟩
              | true =>
                cases hsv : env.saveOk with
                | false =>
                  rw [process_save_fail env fs img d md ts hg hs hw hh hmk (Or.inr hsv)]
                  exact Or.inr ⟨rfl, rfl⟩
                | true =>
                  rw [process_success env fs img d md ts hg hs hw hh hmk hfk hsv]
                  exact Or.inl ⟨rfl, rfl⟩

/-- C1, witness. -/
theorem process_result_exclusive_witness :
    exclusiveResult
      (process_uploaded_image envOk (some fsGood) "static/uploads" (4000, 4000)
        (300, 300)).1 :=
  process_result_exclusive envOk (some fsGood) "static/uploads" (4000, 4000) (300, 300) rfl

/-! ## C2 — thumbnail failure never propagates -/

/-- C2: once the primary write has succeeded (its destination carries a
savable extension and the write itself went through), a failing thumbnail step
(its `makedirs` or its save raising) never propagates: the pipeline still
returns the generated filename with no error, and the primary write is still
among the performed filesystem operations. -/
theorem thumbnail_failure_not_propagated (env : PipelineEnv) (fs : FileStorage)
    (img : DecodedImage) (d : String) (md ts : Nat × Nat)
    (hg : gatePass fs = true) (hs : fs.stream = some img)
    (hw : img.width ≤ md.1) (hh : img.height ≤ md.2)
    (hmk : env.mkdirOk = true)
    (hfmt : pilSaveFormatKnown
        (pathJoin d (env.token ++ (splitext (secure_filename (fs.filename.getD ""))).2)) = true)
    (hsv : env.saveOk = true)
    (hth : env.thumbMkdirOk = false ∨ env.thumbSaveOk = false) :
    (process_uploaded_image env (some fs) d md ts).1 =
      .ok (some (env.token ++ (splitext (secure_filename (fs.filename.getD ""))).2)) none ∧
    FsOp.writeFile
        (pathJoin d (env.token ++ (splitext (secure_filename (fs.filename.getD ""))).2))
        (ensure_saveable_mode img) ∈
      (process_uploaded_image env (some fs) d md ts).2 := by
  rw [process_success env fs img d md ts hg hs hw hh hmk hfmt hsv]
  exact ⟨rfl, List.mem_cons_of_mem _ (List.mem_cons_self _ _)⟩

/-- C2, witness (thumbs directory creation fails; upload still succeeds). -/
theorem thumbnail_failure_not_propagated_witness :
    (process_uploaded_image envNoThumb (some fsGood) "static/uploads" (4000, 4000)
        (300, 300)).1 =
      .ok (some (envNoThumb.token ++
        (splitext (secure_filename (fsGood.filename.getD ""))).2)) none ∧
    FsOp.writeFile
        (pathJoin "static/uploads" (envNoThumb.token ++
          (splitext (secure_filename (fsGood.filename.getD ""))).2))
        (ensure_saveable_mode ⟨50, 50, "RGB"⟩) ∈
      (process_uploaded_image envNoThumb (some fsGood) "static/uploads" (4000, 4000)
        (300, 300)).2 :=
  thumbnail_failure_not_propagated envNoThumb fsGood ⟨50, 50, "RGB"⟩ "static/uploads"
    (4000, 4000) (300, 300) (by decide) rfl (by decide) (by decide) rfl (by decide) rfl
    (Or.inl rfl)

/-! ## C3 — no filesystem effects before the store stage -/

/-- C3, counterexample: the decode-stage error message is also returned when
the primary save fails, and in that run the upload directory has already been
created (`os.makedirs` precedes the save) — so "the filesystem is unchanged
whenever one of these error messages is returned" is false for `MSG_INVALID`. -/
theorem invalid_message_after_directory_creation :
    process_uploaded_image envNoSave (some fsGood) "static/uploads" (4000, 4000) (300, 300) =
      (.ok none (some MSG_INVALID), [FsOp.makedirs "static/uploads"]) ∧
    (process_uploaded_image envOk (some fsBadStream) "static/uploads" (4000, 4000)
        (300, 300)).1 = .ok none (some MSG_INVALID) ∧
    ([FsOp.makedirs "static/uploads"] : List FsOp) ≠ ([] : List FsOp) :=
  ⟨rfl, rfl, by simp⟩

/-- C3, amended: every run rejected at the gate, decode/verify, or dimension
stage performs no filesystem operation at all (rejection at those stages, not
the message text, is what guarantees an untouched filesystem). -/
theorem early_reject_no_fs_ops (env : PipelineEnv) (fsOpt : Option FileStorage)
    (d : String) (md ts : Nat × Nat)
    (h : fsOpt = none ∨ ∃ fs, fsOpt = some fs ∧
      (gatePass fs = false ∨ fs.stream = none ∨
        ∃ img, fs.stream = some img ∧ (md.1 < img.width ∨ md.2 < img.height))) :
    (process_uploaded_image env fsOpt d md ts).2 = [] := by
  rcases h with h | ⟨fs, rfl, h⟩
  · subst h
    rw [process_arg_none]
  · cases h1 : blankStr (fs.filename.getD "") with
    | true => rw [process_blank env fs d md ts h1]
    | false =>
      cases h2 : allowed_file (fs.filename.getD "") with
      | false => rw [process_bad_ext env fs d md ts h1 h2]
      | true =>
        cases h3 : mimeOk fs with
        | false => rw [process_bad_mime env fs d md ts h1 h2 h3]
        | true =>
          have hg : gatePass fs = true := (gatePass_iff fs).mpr ⟨h1, h2, h3⟩
          rcases h with hgf | hsn | ⟨img, hs, hdim⟩
          · simp [hg] at hgf
          · rw [process_decode_fail env fs d md ts hg hsn]
          · rw [process_size_reject env fs img d md ts hg hs hdim]

/-- C3, witness (disallowed extension: no filesystem operation). -/
theorem early_reject_no_fs_ops_witness :
    (process_uploaded_image envOk (some fsTxt) "static/uploads" (4000, 4000)
      (300, 300)).2 = [] :=
  early_reject_no_fs_ops envOk (some fsTxt) "static/uploads" (4000, 4000) (300, 300)
    (Or.inr ⟨fsTxt, rfl, Or.inl (by decide)⟩)

/-! ## C4 — distinctness of the terminal failure messages -/

/-- C4, counterexample: the store-failure branch returns exactly the message of
the decode/verify-failure branch, so these two terminal failure states do not
return distinct user-facing messages. -/
theorem store_failure_message_equals_decode_message :
    (process_uploaded_image envNoSave (some fsGood) "static/uploads" (4000, 4000)
        (300, 300)).1 = .ok none (some MSG_INVALID) ∧
    (process_uploaded_image envOk (some fsBadStream) "static/uploads" (4000, 4000)
        (300, 300)).1 = .ok none (some MSG_INVALID) :=
  ⟨rfl, rfl⟩

/-- C4, amended: the missing-file, extension, content-type, decode and
dimension messages are pairwise distinct, but the store-failure branch reuses
the decode-failure message `MSG_INVALID` instead of a distinct storage
message. -/
theorem failure_messages_distinct_except_store :
    MSG_NO_FILE ≠ MSG_BAD_EXT ∧ MSG_NO_FILE ≠ MSG_BAD_MIME ∧ MSG_NO_FILE ≠ MSG_INVALID ∧
    MSG_BAD_EXT ≠ MSG_BAD_MIME ∧ MSG_BAD_EXT ≠ MSG_INVALID ∧ MSG_BAD_MIME ≠ MSG_INVALID ∧
    (∀ w h, sizeErrorMsg w h ≠ MSG_NO_FILE ∧ sizeErrorMsg w h ≠ MSG_BAD_EXT ∧
      sizeErrorMsg w h ≠ MSG_BAD_MIME ∧ sizeErrorMsg w h ≠ MSG_INVALID) ∧
    ∀ env fs img d md ts, gatePass fs = true → fs.stream = some img →
      img.width ≤ md.1 → img.height ≤ md.2 → env.mkdirOk = true → env.saveOk = false →
      (process_uploaded_image env (some fs) d md ts).1 = .ok none (some MSG_INVALID) := by
  refine ⟨by decide, by decide, by decide, by decide, by decide, by decide, ?_, ?_⟩
  · intro w h
    exact ⟨sizeErrorMsg_ne w h _ (by decide), sizeErrorMsg_ne w h _ (by decide),
      sizeErrorMsg_ne w h _ (by decide), sizeErrorMsg_ne w h _ (by decide)⟩
  · intro env fs img d md ts hg hs hw hh hmk hsv
    rw [process_save_fail env fs img d md ts hg hs hw hh hmk (Or.inr hsv)]

/-- C4, witness. -/
theorem failure_messages_distinct_except_store_witness :
    (process_uploaded_image envNoSave (some fsGood) "static/uploads" (4000, 4000)
        (300, 300)).1 = .ok none (some MSG_INVALID) ∧
    sizeErrorMsg 4000 4000 ≠ MSG_INVALID :=
  ⟨failure_messages_distinct_except_store.2.2.2.2.2.2.2 envNoSave fsGood ⟨50, 50, "RGB"⟩
      "static/uploads" (4000, 4000) (300, 300) (by decide) rfl (by decide) (by decide) rfl rfl,
    (failure_messages_distinct_except_store.2.2.2.2.2.2.1 4000 4000).2.2.2⟩

/-! ## C5 — strict dimension guard, bound in the message -/

/-- C5: with the gate passed and the image decoded, the pipeline fails with the
size-exceeded message exactly when a dimension strictly exceeds its bound (a
dimension equal to the bound is accepted), and that message carries the
configured bound `"{max_w}x{max_h}"` verbatim. -/
theorem dimension_guard_strict_iff (env : PipelineEnv) (fs : FileStorage)
    (img : DecodedImage) (d : String) (maxw maxh : Nat) (ts : Nat × Nat)
    (hg : gatePass fs = true) (hs : fs.stream = some img) :
    ((process_uploaded_image env (some fs) d (maxw, maxh) ts).1 =
        .ok none (some (sizeErrorMsg maxw maxh)) ↔
      (maxw < img.width ∨ maxh < img.height)) ∧
    ∃ pre post,
      sizeErrorMsg maxw maxh = pre ++ (Nat.repr maxw ++ "x" ++ Nat.repr maxh) ++ post := by
  refine ⟨⟨?_, ?_⟩, "画像のサイズが大きすぎます（最大 ", "）。", rfl⟩
  · intro hres
    by_contra hdim
    push_neg at hdim
    obtain ⟨hw, hh⟩ := hdim
    cases hmk : env.mkdirOk with
    | false =>
      rw [process_mkdir_exn env fs img d (maxw, maxh) ts hg hs hw hh hmk] at hres
      simp at hres
    | true =>
      cases hfk : pilSaveFormatKnown
          (pathJoin d (env.token ++ (splitext (secure_filename (fs.filename.getD ""))).2)) with
      | false =>
        rw [process_save_fail env fs img d (maxw, maxh) ts hg hs hw hh hmk (Or.inl hfk)] at hres
        simp at hres
        exact sizeErrorMsg_ne maxw maxh MSG_INVALID (by decide) hres.symm
      | true =>
        cases hsv : env.saveOk with
        | false =>
          rw [process_save_fail env fs img d (maxw, maxh) ts hg hs hw hh hmk
            (Or.inr hsv)] at hres
          simp at hres
          exact sizeErrorMsg_ne maxw maxh MSG_INVALID (by decide) hres.symm
        | true =>
          rw [process_success env fs img d (maxw, maxh) ts hg hs hw hh hmk hfk hsv] at hres
          simp at hres
  · intro hdim
    rw [process_size_reject env fs img d (maxw, maxh) ts hg hs hdim]

/-- C5, witness: a 5000×50 image against the default 4000×4000 bound. -/
theorem dimension_guard_strict_iff_witness :
    (((process_uploaded_image envOk (some fsBig) "static/uploads" (4000, 4000)
          (300, 300)).1 = .ok none (some (sizeErrorMsg 4000 4000))) ↔
      (4000 < 5000 ∨ 4000 < 50)) ∧
    ∃ pre post, sizeErrorMsg 4000 4000 = pre ++ (Nat.repr 4000 ++ "x" ++ Nat.repr 4000) ++ post :=
  dimension_guard_strict_iff envOk fsBig ⟨5000, 50, "RGB"⟩ "static/uploads" 4000 4000
    (300, 300) (by decide) rfl

/-! ## C6 — color-mode normalization before saving -/

/-- C6, counterexample: a decodable grayscale-plus-alpha (`LA`) image — an
alpha-channel mode — is written out unchanged, not converted to `RGB`: both
save sites only convert the modes `RGBA` and `P`. -/
theorem la_mode_saved_unconverted :
    paletteOrAlphaMode "LA" = true ∧
    process_uploaded_image envOk (some fsLA) "static/uploads" (4000, 4000) (300, 300) =
      (.ok (some "deadbeef.png") none,
        [FsOp.makedirs "static/uploads",
         FsOp.writeFile "static/uploads/deadbeef.png" ⟨50, 50, "LA"⟩,
         FsOp.makedirs "static/uploads/thumbs",
         FsOp.writeFile "static/uploads/thumbs/deadbeef.png" ⟨50, 50, "LA"⟩]) ∧
    ("LA" : String) ≠ "RGB" :=
  ⟨rfl, rfl, by decide⟩

/-- `Image.thumbnail` preserves the color mode. -/
theorem pilThumbnail_mode (img : DecodedImage) (s : Nat × Nat) :
    (pilThumbnail img s).mode = img.mode := by
  unfold pilThumbnail
  split_ifs <;> rfl

/-- The mode actually written by `_save_image`. -/
theorem ensure_saveable_mode_mode (img : DecodedImage) :
    (ensure_saveable_mode img).mode =
      if img.mode = "RGBA" ∨ img.mode = "P" then "RGB" else img.mode := by
  unfold ensure_saveable_mode
  split_ifs <;> rfl

/-- C6, amended: every file the pipeline writes (full-size and thumbnail alike)
carries mode `RGB` when the decoded mode was `RGBA` or `P`, and the decoded
mode unchanged otherwise — other palette or alpha modes such as `LA` pass
through unconverted. -/
theorem saved_mode_normalization (env : PipelineEnv) (fs : FileStorage) (img : DecodedImage)
    (d : String) (md ts : Nat × Nat) (p : String) (i : DecodedImage)
    (hs : fs.stream = some img)
    (hmem : FsOp.writeFile p i ∈ (process_uploaded_image env (some fs) d md ts).2) :
    i.mode = if img.mode = "RGBA" ∨ img.mode = "P" then "RGB" else img.mode := by
  cases h1 : blankStr (fs.filename.getD "") with
  | true => rw [process_blank env fs d md ts h1] at hmem; simp at hmem
  | false =>
    cases h2 : allowed_file (fs.filename.getD "") with
    | false => rw [process_bad_ext env fs d md ts h1 h2] at hmem; simp at hmem
    | true =>
      cases h3 : mimeOk fs with
      | false => rw [process_bad_mime env fs d md ts h1 h2 h3] at hmem; simp at hmem
      | true =>
        have hg : gatePass fs = true := (gatePass_iff fs).mpr ⟨h1, h2, h3⟩
        by_cases hdim : img.width > md.1 ∨ img.height > md.2
        · rw [process_size_reject env fs img d md ts hg hs hdim] at hmem
          simp at hmem
        · push_neg at hdim
          obtain ⟨hw, hh⟩ := hdim
          cases hmk : env.mkdirOk with
          | false =>
            rw [process_mkdir_exn env fs img d md ts hg hs hw hh hmk] at hmem
            simp at hmem
          | true =>
            cases hfk : pilSaveFormatKnown
                (pathJoin d (env.token ++
                  (splitext (secure_filename (fs.filename.getD ""))).2)) with
            | false =>
              rw [process_save_fail env fs img d md ts hg hs hw hh hmk (Or.inl hfk)] at hmem
              simp at hmem
            | true =>
              cases hsv : env.saveOk with
              | false =>
                rw [process_save_fail env fs img d md ts hg hs hw hh hmk (Or.inr hsv)] at hmem
                simp at hmem
              | true =>
                rw [process_success env fs img d md ts hg hs hw hh hmk hfk hsv] at hmem
                rw [← ensure_saveable_mode_mode img]
                cases htm : env.thumbMkdirOk with
                | false =>
                  simp [create_thumbnail, htm] at hmem
                  rw [hmem.2]
                | true =>
                  cases htf : pilSaveFormatKnown
                      (pathJoin (pathJoin d "thumbs")
                        (env.token ++
                          (splitext (secure_filename (fs.filename.getD ""))).2)) with
                  | false =>
                    simp [create_thumbnail, htm, htf] at hmem
                    rw [hmem.2]
                  | true =>
                    cases hts : env.thumbSaveOk with
                    | false =>
                      simp [create_thumbnail, htm, htf, hts] at hmem
                      rw [hmem.2]
                    | true =>
                      simp [create_thumbnail, htm, htf, hts] at hmem
                      rcases hmem with ⟨-, hi⟩ | ⟨-, hi⟩
                      · rw [hi]
                      · rw [hi]
                        rw [ensure_saveable_mode_mode img]
                        simp [pilThumbnail_mode]
                        split_ifs <;> simp_all [pilThumbnail_mode]

/-- C6, witness: an `RGBA` upload's primary file is written with mode `RGB`. -/
theorem saved_mode_normalization_witness :
    ("RGB" : String) =
      if ("RGBA" : String) = "RGBA" ∨ ("RGBA" : String) = "P" then "RGB" else "RGBA" :=
  saved_mode_normalization envOk fsRGBA ⟨50, 50, "RGBA"⟩ "static/uploads" (4000, 4000)
    (300, 300) "static/uploads/deadbeef.png" ⟨50, 50, "RGB"⟩ rfl (by decide)

/-! ## Structure of the sanitized filename and its extension

The following lemmas characterize what `secure_filename` and `splitext` do to a
gate-passing filename: the stored extension is either empty or exactly the
dot-prefixed extension the gate checked. -/

/-- `asciiLower` either fixes a character or acts on the uppercase range. -/
theorem asciiLower_cases (c : Char) : asciiLower c = c ∨ ('A' ≤ c ∧ c ≤ 'Z') := by
  unfold asciiLower
  split_ifs with h
  · exact Or.inr h
  · exact Or.inl rfl

/-- Characters of an allowed extension survive every sanitation step: they are
ASCII, non-whitespace, not the separator, kept by the filter, and never
stripped. -/
theorem extLetter_props (c : Char) (h : asciiLower c ∈ extLetters) :
    c.toNat < 128 ∧ isPySpace c = false ∧ c ≠ '/' ∧ keepChar c = true ∧ stripChar c = false := by
  rcases asciiLower_cases c with hc | ⟨h1, h2⟩
  · rw [hc] at h
    fin_cases h <;> exact (by decide)
  · refine ⟨?_, ?_, ?_, ?_, ?_⟩
    · have hz : c.toNat ≤ 90 := h2
      omega
    · simp only [isPySpace, Bool.decide_or, Bool.or_eq_false_iff, decide_eq_false_iff_not]
      refine ⟨?_, ?_, ?_, ?_, ?_, ?_⟩ <;> rintro rfl <;> revert h1 h2 <;> decide
    · rintro rfl
      revert h1 h2
      decide
    · simp [keepChar, Char.isAlphanum, Char.isAlpha, Char.isUpper]
      exact Or.inl (Or.inl (Or.inl ⟨h1, h2⟩))
    · simp only [stripChar, Bool.decide_or, Bool.or_eq_false_iff, decide_eq_false_iff_not]
      constructor <;> rintro rfl <;> revert h1 h2 <;> decide

/-- Each character of an allowed extension word lowers into `extLetters`. -/
theorem mem_allowed_chars (w : String) (hw : w ∈ ALLOWED_EXTENSIONS) (c : Char)
    (hc : c ∈ w.data) : c ∈ extLetters := by
  fin_cases hw
  · rw [show ("png" : String).data = ['p', 'n', 'g'] from rfl] at hc
    fin_cases hc <;> decide
  · rw [show ("jpg" : String).data = ['j', 'p', 'g'] from rfl] at hc
    fin_cases hc <;> decide
  · rw [show ("jpeg" : String).data = ['j', 'p', 'e', 'g'] from rfl] at hc
    fin_cases hc <;> decide
  · rw [show ("gif" : String).data = ['g', 'i', 'f'] from rfl] at hc
    fin_cases hc <;> decide
  · rw [show ("webp" : String).data = ['w', 'e', 'b', 'p'] from rfl] at hc
    fin_cases hc <;> decide

/-- The lowered `rsplit` extension of a gate-passing filename is an allowed
extension word. -/
theorem lower_ext_mem_of_allowed (s : String) (h : allowed_file s = true) :
    lowerStr (rsplitDot s) ∈ ALLOWED_EXTENSIONS := by
  unfold allowed_file at h
  split_ifs at h
  exact List.elem_iff.mp h

/-- A gate-passing filename contains a dot. -/
theorem contains_dot_of_allowed (s : String) (h : allowed_file s = true) :
    '.' ∈ s.data := by
  unfold allowed_file at h
  split_ifs at h with hcond
  push_neg at hcond
  exact List.elem_iff.mp hcond.2

/-- Every character of the `rsplit` extension of a gate-passing filename lowers
into `extLetters`. -/
theorem goodExt_of_allowed (s : String) (h : allowed_file s = true) :
    ∀ c ∈ (rsplitDot s).data, asciiLower c ∈ extLetters := by
  intro c hc
  have hmem := lower_ext_mem_of_allowed s h
  have : asciiLower c ∈ (lowerStr (rsplitDot s)).data :=
    List.mem_map_of_mem asciiLower hc
  exact mem_allowed_chars _ hmem _ this

/-- The `rsplit` extension of a gate-passing filename is non-empty. -/
theorem rsplitDot_ne_nil_of_allowed (s : String) (h : allowed_file s = true) :
    (rsplitDot s).data ≠ [] := by
  intro hnil
  have hempty : lowerStr (rsplitDot s) = "" := by
    unfold lowerStr
    rw [show (rsplitDot s).toList = (rsplitDot s).data from rfl, hnil]
    rfl
  have := lower_ext_mem_of_allowed s h
  rw [hempty] at this
  exact absurd this (by decide)

/-- The head of a non-empty `dropWhile` result falsifies the predicate. -/
theorem dropWhile_head_not (p : Char → Bool) (l : List Char) (d : Char) (t : List Char)
    (h : l.dropWhile p = d :: t) : p d = false := by
  induction l with
  | nil => cases h
  | cons x xs ih =>
    rw [List.dropWhile_cons] at h
    split_ifs at h with hx
    · exact ih h
    · cases h
      exact Bool.of_not_eq_true hx

/-- Splitting a string at its last dot: the data decomposes as everything
before, the dot, and the dot-free `rsplit` extension. -/
theorem rsplit_decomp (s : String) (h : '.' ∈ s.data) :
    ∃ A, s.data = A ++ '.' :: (rsplitDot s).data ∧ ∀ c ∈ (rsplitDot s).data, c ≠ '.' := by
  have hsplit := List.takeWhile_append_dropWhile (fun c => decide (c ≠ '.')) s.data.reverse
  have hD : s.data.reverse.dropWhile (fun c => decide (c ≠ '.')) ≠ [] := by
    intro hnil
    rw [hnil, List.append_nil] at hsplit
    have hmem : ('.' : Char) ∈ s.data.reverse.takeWhile (fun c => decide (c ≠ '.')) := by
      rw [hsplit]
      exact List.mem_reverse.mpr h
    have := List.mem_takeWhile_imp hmem
    simp at this
  obtain ⟨d, D2, hdD⟩ := List.exists_cons_of_ne_nil hD
  have hddot : d = '.' := by
    have := dropWhile_head_not _ _ _ _ hdD
    simpa using this
  subst hddot
  refine ⟨D2.reverse, ?_, ?_⟩
  · conv_lhs => rw [← List.reverse_reverse s.data, ← hsplit]
    rw [hdD, List.reverse_append, List.reverse_cons, rsplitDot]
    simp [List.append_assoc]
  · intro c hc
    have hmem : c ∈ s.data.reverse.takeWhile (fun x => decide (x ≠ '.')) := by
      rw [rsplitDot] at hc
      simpa using hc
    have := List.mem_takeWhile_imp hmem
    simpa using this

/-- A run of non-whitespace characters passes through `squash` unchanged. -/
theorem squash_all_nonspace (l : List Char) (h : ∀ c ∈ l, isPySpace c = false) :
    ∀ b, squash b l = l := by
  induction l with
  | nil => intro b; rfl
  | cons c cs ih =>
    intro b
    have hc := h c (List.mem_cons_self c cs)
    simp only [squash, hc, Bool.false_eq_true, if_false, List.cons.injEq, true_and]
    exact ih (fun x hx => h x (List.mem_cons_of_mem c hx)) true

/-- `squash` preserves a trailing run of non-whitespace characters. -/
theorem squash_append_suffix (E : List Char) (hgood : ∀ c ∈ E, isPySpace c = false) :
    ∀ (xs : List Char) (b : Bool), ∃ ys, squash b (xs ++ E) = ys ++ E := by
  intro xs
  induction xs with
  | nil => exact fun b => ⟨[], by simpa using squash_all_nonspace E hgood b⟩
  | cons x xs ih =>
    intro b
    by_cases hx : isPySpace x = true
    · obtain ⟨ys, hys⟩ := ih false
      refine ⟨if b ∧ ys ++ E ≠ [] then '_' :: ys else ys, ?_⟩
      rw [List.cons_append]
      simp only [squash, hx, if_true]
      rw [hys]
      split_ifs <;> simp
    · obtain ⟨ys, hys⟩ := ih true
      refine ⟨x :: ys, ?_⟩
      rw [List.cons_append]
      simp only [squash, hx, Bool.false_eq_true, if_false]
      rw [hys, List.cons_append]

/-- `takeWhile` runs through a satisfying run and stops at the first failure. -/
theorem takeWhile_append_stop (p : Char → Bool) (xs ys : List Char) (y : Char)
    (hxs : ∀ x ∈ xs, p x = true) (hy : p y = false) :
    (xs ++ y :: ys).takeWhile p = xs := by
  induction xs with
  | nil => simp [List.takeWhile_cons, hy]
  | cons a as ih =>
    have ha := hxs a (List.mem_cons_self a as)
    simp [List.takeWhile_cons, ha, ih (fun x hx => hxs x (List.mem_cons_of_mem a hx))]

/-- `splitext` of a dot-free, slash-free name yields no extension. -/
theorem splitext_snd_no_dot (l : List Char) (hdot : ∀ c ∈ l, c ≠ '.')
    (hslash : ∀ c ∈ l, c ≠ '/') :
    (splitext (String.mk l)).2 = "" := by
  have htl : (String.mk l).toList = l := rfl
  have hslash' : l.reverse.takeWhile (fun c => decide (c ≠ '/')) = l.reverse :=
    List.takeWhile_eq_self_iff.mpr (fun a ha => by
      simpa using hslash a (List.mem_reverse.mp ha))
  have hdot' : l.reverse.takeWhile (fun c => decide (c ≠ '.')) = l.reverse :=
    List.takeWhile_eq_self_iff.mpr (fun a ha => by
      simpa using hdot a (List.mem_reverse.mp ha))
  simp only [splitext, htl, hslash', List.reverse_reverse, hdot', List.length_reverse]
  simp

/-- Right-stripping removes nothing when the final character is not
strippable. -/
theorem rstrip_id (l : List Char) (d : Char) (rs : List Char)
    (hrev : l.reverse = d :: rs) (hd : stripChar d = false) :
    (l.reverse.dropWhile stripChar).reverse = l := by
  rw [hrev, List.dropWhile_cons]
  simp only [hd, Bool.false_eq_true, if_false]
  rw [← hrev, List.reverse_reverse]

/-- `splitext` of `head ∥ '.' ∥ ext` with a non-dot head and a dot-free,
slash-free remainder splits exactly at that dot. -/
theorem splitext_snd_with_ext (d : Char) (D E : List Char)
    (hd : d ≠ '.')
    (hdotE : ∀ c ∈ E, c ≠ '.')
    (hslash : ∀ c ∈ (d :: D) ++ '.' :: E, c ≠ '/') :
    (splitext (String.mk ((d :: D) ++ '.' :: E))).2 = String.mk ('.' :: E) := by
  set l := (d :: D) ++ '.' :: E with hl
  have htl : (String.mk l).toList = l := rfl
  have hslash' : l.reverse.takeWhile (fun c => decide (c ≠ '/')) = l.reverse :=
    List.takeWhile_eq_self_iff.mpr (fun a ha => by
      simpa using hslash a (List.mem_reverse.mp ha))
  have hrev : l.reverse = E.reverse ++ '.' :: (d :: D).reverse := by
    rw [hl, List.reverse_append, List.reverse_cons]
    simp [List.append_assoc]
  have hafter : l.reverse.takeWhile (fun c => decide (c ≠ '.')) = E.reverse := by
    rw [hrev]
    exact takeWhile_append_stop _ _ _ _
      (fun x hx => by simpa using hdotE x (List.mem_reverse.mp hx)) (by simp)
  have hlen : l.length = D.length + 2 + E.length := by
    simp [hl]
    omega
  have hdotPos : l.length - E.length - 1 = (d :: D).length := by
    simp only [List.length_cons]
    omega
  have hcond1 : ¬(E.length = l.length) := by omega
  have htake : l.take (l.length - E.length - 1) = d :: D := by
    rw [hdotPos, hl, show (d :: D).length = (d :: D).length from rfl]
    exact List.take_left (d :: D) ('.' :: E)
  have hcond2 : (l.take (l.length - E.length - 1)).all (fun c => decide (c = '.')) = false := by
    rw [htake]
    simp [hd]
  have hdrop : l.drop (l.length - l.length + (l.length - E.length - 1)) = '.' :: E := by
    rw [Nat.sub_self, Nat.zero_add, hdotPos, hl]
    exact List.drop_left (d :: D) ('.' :: E)
  simp only [splitext, htl, hslash', List.reverse_reverse, hafter, List.length_reverse]
  rw [if_neg hcond1, if_neg (by simpa using hcond2)]
  exact congrArg String.mk hdrop

/-- Shape of `secure_filename` on a gate-passing name: either only the
extension characters survive, or a kept, non-strippable head followed by the
final dot and the untouched extension. -/
theorem secure_filename_shape (s : String) (h : allowed_file s = true) :
    (secure_filename s).data = (rsplitDot s).data ∨
    ∃ d D, (secure_filename s).data = (d :: D) ++ '.' :: (rsplitDot s).data ∧
      stripChar d = false ∧ ∀ c ∈ d :: D, keepChar c = true := by
  obtain ⟨A, hA, hEdot⟩ := rsplit_decomp s (contains_dot_of_allowed s h)
  have hEgood := goodExt_of_allowed s h
  have hEne := rsplitDot_ne_nil_of_allowed s h
  set E := (rsplitDot s).data with hEdef
  have hEascii : ∀ c ∈ E, (fun c => decide (c.toNat < 128)) c = true := fun c hc => by
    simpa using (extLetter_props c (hEgood c hc)).1
  have hEspace : ∀ c ∈ E, isPySpace c = false := fun c hc =>
    (extLetter_props c (hEgood c hc)).2.1
  have hEslash : ∀ c ∈ E, c ≠ '/' := fun c hc =>
    (extLetter_props c (hEgood c hc)).2.2.1
  have hEkeep : ∀ c ∈ E, keepChar c = true := fun c hc =>
    (extLetter_props c (hEgood c hc)).2.2.2.1
  have hEstrip : ∀ c ∈ E, stripChar c = false := fun c hc =>
    (extLetter_props c (hEgood c hc)).2.2.2.2
  have st1 : s.toList.filter (fun c => decide (c.toNat < 128)) =
      (A.filter fun c => decide (c.toNat < 128)) ++ '.' :: E := by
    rw [show s.toList = s.data from rfl, hA, List.filter_append]
    congr 1
    rw [List.filter_cons_of_pos (by decide), List.filter_eq_self.mpr hEascii]
  have st2 : ((A.filter fun c => decide (c.toNat < 128)) ++ '.' :: E).map
      (fun c => if c = '/' then ' ' else c) =
      ((A.filter fun c => decide (c.toNat < 128)).map fun c => if c = '/' then ' ' else c)
        ++ '.' :: E := by
    rw [List.map_append]
    congr 1
    rw [List.map_cons]
    congr 1
    have : ∀ c ∈ E, (fun c => if c = '/' then ' ' else c) c = id c := fun c hc => by
      simp [hEslash c hc]
    rw [List.map_congr_left this, List.map_id]
  have hdotEspace : ∀ c ∈ '.' :: E, isPySpace c = false := by
    intro c hc
    rcases List.mem_cons.mp hc with rfl | hc
    · rfl
    · exact hEspace c hc
  obtain ⟨ys, st3⟩ := squash_append_suffix ('.' :: E) hdotEspace
    ((A.filter fun c : Char => decide (c.toNat < 128)).map
      fun c : Char => if c = '/' then ' ' else c) false
  have st4 : (ys ++ '.' :: E).filter keepChar = ys.filter keepChar ++ '.' :: E := by
    rw [List.filter_append]
    congr 1
    rw [List.filter_cons_of_pos (by decide), List.filter_eq_self.mpr hEkeep]
  have hsfStr : secure_filename s = String.mk
      ((((ys.filter keepChar ++ '.' :: E).dropWhile stripChar).reverse.dropWhile
        stripChar).reverse) := by
    simp only [secure_filename]
    rw [st1, st2, st3, st4]
  set D0 := ys.filter keepChar with hD0
  have hkeepD0 : ∀ c ∈ D0, keepChar c = true := fun c hc => (List.mem_filter.mp hc).2
  obtain ⟨e, E', hEcons⟩ := List.exists_cons_of_ne_nil hEne
  obtain ⟨r, rs, hErev⟩ := List.exists_cons_of_ne_nil
    (show E.reverse ≠ [] by simpa using hEne)
  have hrE : r ∈ E := List.mem_reverse.mp (hErev ▸ List.mem_cons_self r rs)
  rcases hsplit : D0.dropWhile stripChar with _ | ⟨d, D1⟩
  · -- every kept head character is stripped away: only the extension survives
    left
    have hE1 : E.dropWhile stripChar = E := by
      rw [hEcons, List.dropWhile_cons]
      simp [hEstrip e (hEcons ▸ List.mem_cons_self e E')]
    have hlst : (D0 ++ '.' :: E).dropWhile stripChar = E := by
      rw [List.dropWhile_append, hsplit]
      simp only [List.isEmpty_nil, if_true]
      rw [List.dropWhile_cons]
      simp only [show stripChar '.' = true from rfl, if_true]
      exact hE1
    rw [hsfStr]
    show (((D0 ++ '.' :: E).dropWhile stripChar).reverse.dropWhile stripChar).reverse = E
    rw [hlst]
    exact rstrip_id E r rs hErev (hEstrip r hrE)
  · -- a non-strippable head survives in front of the dot
    right
    have hdstrip : stripChar d = false := dropWhile_head_not _ _ _ _ hsplit
    have hlst : (D0 ++ '.' :: E).dropWhile stripChar = (d :: D1) ++ '.' :: E := by
      rw [List.dropWhile_append, hsplit]
      simp
    have hrevfull : ((d :: D1) ++ '.' :: E).reverse = r :: (rs ++ '.' :: (d :: D1).reverse) := by
      rw [List.reverse_append, List.reverse_cons, hErev]
      simp [List.append_assoc]
    refine ⟨d, D1, ?_, hdstrip, ?_⟩
    · rw [hsfStr]
      show (((D0 ++ '.' :: E).dropWhile stripChar).reverse.dropWhile stripChar).reverse
        = (d :: D1) ++ '.' :: E
      rw [hlst]
      exact rstrip_id ((d :: D1) ++ '.' :: E) r _ hrevfull (hEstrip r hrE)
    · intro c hc
      have hcd : c ∈ D0.dropWhile stripChar := by rw [hsplit]; exact hc
      exact hkeepD0 c ((List.dropWhile_sublist stripChar).subset hcd)

/-- The stored extension of a gate-passing filename is either empty or exactly
the dot-prefixed `rsplit` extension the gate checked. -/
theorem stored_extension_cases (s : String) (h : allowed_file s = true) :
    (splitext (secure_filename s)).2 = "" ∨
    (splitext (secure_filename s)).2 = String.mk ('.' :: (rsplitDot s).data) := by
  obtain ⟨A, hA, hEdot⟩ := rsplit_decomp s (contains_dot_of_allowed s h)
  have hEgood := goodExt_of_allowed s h
  have hEslash : ∀ c ∈ (rsplitDot s).data, c ≠ '/' := fun c hc =>
    (extLetter_props c (hEgood c hc)).2.2.1
  rcases secure_filename_shape s h with hsh | ⟨d, D, hsh, hd, hkeep⟩
  · left
    have heq : secure_filename s = String.mk (rsplitDot s).data := String.ext hsh
    rw [heq]
    exact splitext_snd_no_dot _ hEdot hEslash
  · right
    have heq : secure_filename s = String.mk ((d :: D) ++ '.' :: (rsplitDot s).data) :=
      String.ext hsh
    rw [heq]
    apply splitext_snd_with_ext
    · intro hde
      rw [hde] at hd
      simp [stripChar] at hd
    · exact hEdot
    · intro c hc
      rcases List.mem_append.mp hc with hc | hc
      · have hkc := hkeep c hc
        intro hce
        rw [hce] at hkc
        exact absurd hkc (by decide)
      · rcases List.mem_cons.mp hc with rfl | hc
        · decide
        · exact hEslash c hc

/-- A successful single-character `headMatches` pins down the head. -/
theorem headMatches_single (c : Char) (l : List Char) (h : headMatches [c] l = true) :
    ∃ r, l = c :: r := by
  cases l with
  | nil => cases h
  | cons x xs =>
    refine ⟨xs, ?_⟩
    unfold headMatches at h
    split_ifs at h with hc
    rw [hc]

/-- `splitext` finds no extension when the final path component is dot-free. -/
theorem splitext_snd_eq_empty_of (l : List Char)
    (h : ∀ c ∈ l.reverse.takeWhile (fun c => decide (c ≠ '/')), c ≠ '.') :
    (splitext (String.mk l)).2 = "" := by
  have htl : (String.mk l).toList = l := rfl
  have hafter : (l.reverse.takeWhile fun c => decide (c ≠ '/')).takeWhile
      (fun c => decide (c ≠ '.')) = l.reverse.takeWhile fun c => decide (c ≠ '/') :=
    List.takeWhile_eq_self_iff.mpr (fun a ha => by simpa using h a ha)
  simp only [splitext, htl, List.reverse_reverse, hafter]
  simp

/-- Joining a dot-free, slash-free final component (such as a `uuid4().hex`
token) onto any directory yields a path with no extension. -/
theorem splitext_pathJoin_dotfree (d t : String)
    (ht : ∀ c ∈ t.data, c ≠ '.' ∧ c ≠ '/') :
    (splitext (pathJoin d t)).2 = "" := by
  have hmain : ∀ X : List Char,
      (X = [] ∨ ∃ r, X.reverse = '/' :: r) →
      ∀ c ∈ (X ++ t.data).reverse.takeWhile (fun c => decide (c ≠ '/')), c ≠ '.' := by
    intro X hX c hc
    rcases hX with rfl | ⟨r, hr⟩
    · have : c ∈ t.data.reverse := (List.takeWhile_sublist _).subset (by simpa using hc)
      exact (ht c (List.mem_reverse.mp this)).1
    · rw [List.reverse_append, hr, takeWhile_append_stop _ _ _ _
        (fun x hx => by simpa using (ht x (List.mem_reverse.mp hx)).2) (by simp)] at hc
      exact (ht c (List.mem_reverse.mp hc)).1
  unfold pathJoin
  split_ifs with hb hae
  · exfalso
    obtain ⟨r, hr⟩ := headMatches_single '/' t.data hb
    exact (ht '/' (hr ▸ List.mem_cons_self _ _)).2 rfl
  · have hmk : d ++ t = String.mk (d.data ++ t.data) := String.ext (String.data_append d t)
    rw [hmk]
    apply splitext_snd_eq_empty_of
    apply hmain
    rcases hae with hd0 | hdslash
    · left
      rw [hd0]
    · right
      exact headMatches_single '/' d.data.reverse hdslash
  · have hmk : d ++ "/" ++ t = String.mk ((d.data ++ ['/']) ++ t.data) := by
      apply String.ext
      rw [String.data_append, String.data_append]
    rw [hmk]
    apply splitext_snd_eq_empty_of
    apply hmain
    right
    exact ⟨d.data.reverse, by simp⟩

/-- Appending a dot-prefixed, dot-free extension to any string makes that
extension the `rsplit` extension. -/
theorem rsplitDot_append_ext (t : String) (E : List Char) (hE : ∀ c ∈ E, c ≠ '.') :
    (rsplitDot (t ++ String.mk ('.' :: E))).data = E := by
  have hdata : (t ++ String.mk ('.' :: E)).data = t.data ++ '.' :: E :=
    String.data_append t (String.mk ('.' :: E))
  show ((t ++ String.mk ('.' :: E)).toList.reverse.takeWhile (· ≠ '.')).reverse = E
  rw [show (t ++ String.mk ('.' :: E)).toList = (t ++ String.mk ('.' :: E)).data from rfl,
    hdata, List.reverse_append, List.reverse_cons, List.append_assoc, List.singleton_append,
    takeWhile_append_stop _ _ _ _
      (fun x hx => by simpa using hE x (List.mem_reverse.mp hx)) (by simp),
    List.reverse_reverse]

/-- A name ending in a dot-prefixed allowed extension passes `allowed_file`,
whatever comes before the dot. -/
theorem allowed_file_append_ext (t : String) (E : List Char) (hE : ∀ c ∈ E, c ≠ '.')
    (hmem : lowerStr (String.mk E) ∈ ALLOWED_EXTENSIONS) :
    allowed_file (t ++ String.mk ('.' :: E)) = true := by
  have hdata : (t ++ String.mk ('.' :: E)).data = t.data ++ '.' :: E :=
    String.data_append t (String.mk ('.' :: E))
  have hne : ¬ (t ++ String.mk ('.' :: E)).isEmpty = true := by
    intro hemp
    have := congrArg String.data ((String.isEmpty_iff _).mp hemp)
    rw [hdata] at this
    simp at this
  have hcont : (t ++ String.mk ('.' :: E)).toList.contains '.' = true := by
    apply List.elem_iff.mpr
    rw [show (t ++ String.mk ('.' :: E)).toList = (t ++ String.mk ('.' :: E)).data from rfl,
      hdata]
    exact List.mem_append_right _ (List.mem_cons_self _ _)
  unfold allowed_file
  rw [if_neg (fun hco => hco.elim hne (fun hnb => hnb hcont))]
  have hr : rsplitDot (t ++ String.mk ('.' :: E)) = String.mk E :=
    String.ext (rsplitDot_append_ext t E hE)
  rw [hr]
  exact List.elem_iff.mpr hmem

/-! ## C7 — shape of the generated storage name -/

/-- The upload named `".png"` passes the gate (its `rsplit` extension is
`png`), but `secure_filename` strips the leading dot to `"png"`, `splitext`
then finds no extension, and `Image.save` on the extension-less destination
raises `ValueError`, caught into the invalid-image message — after the upload
directory was already created.  Such an upload therefore never succeeds. -/
theorem dot_png_upload_rejected :
    process_uploaded_image envOk (some fsDotPng) "static/uploads" (4000, 4000) (300, 300) =
      (.ok none (some MSG_INVALID), [FsOp.makedirs "static/uploads"]) ∧
    secure_filename ".png" = "png" ∧
    (splitext (secure_filename ".png")).2 = "" :=
  ⟨rfl, rfl, rfl⟩

/-- C7: every successful upload stores under `token ++ ext`, where `ext` is
exactly the dot-prefixed extension of the sanitized original filename, its
lowercase form is the allow-set member the gate verified, and the stored name
itself passes `allowed_file`.  An empty extension never yields a success:
`Image.save` cannot derive a format from an extension-less path and the upload
fails at the save.  (`uuid4().hex` tokens are hexadecimal, hence the dot-free,
slash-free token hypothesis.) -/
theorem success_filename_allowed_ext (env : PipelineEnv) (fs : FileStorage)
    (d : String) (md ts : Nat × Nat) (f : String) (er : Option String)
    (htok : ∀ c ∈ env.token.data, c ≠ '.' ∧ c ≠ '/')
    (hres : (process_uploaded_image env (some fs) d md ts).1 = .ok (some f) er) :
    f = env.token ++ (splitext (secure_filename (fs.filename.getD ""))).2 ∧ er = none ∧
    (splitext (secure_filename (fs.filename.getD ""))).2 =
      String.mk ('.' :: (rsplitDot (fs.filename.getD "")).data) ∧
    lowerStr (rsplitDot (fs.filename.getD "")) ∈ ALLOWED_EXTENSIONS ∧
    allowed_file f = true := by
  cases h1 : blankStr (fs.filename.getD "") with
  | true => rw [process_blank env fs d md ts h1] at hres; simp at hres
  | false =>
    cases h2 : allowed_file (fs.filename.getD "") with
    | false => rw [process_bad_ext env fs d md ts h1 h2] at hres; simp at hres
    | true =>
      cases h3 : mimeOk fs with
      | false => rw [process_bad_mime env fs d md ts h1 h2 h3] at hres; simp at hres
      | true =>
        have hg : gatePass fs = true := (gatePass_iff fs).mpr ⟨h1, h2, h3⟩
        cases hstream : fs.stream with
        | none => rw [process_decode_fail env fs d md ts hg hstream] at hres; simp at hres
        | some img =>
          by_cases hdim : img.width > md.1 ∨ img.height > md.2
          · rw [process_size_reject env fs img d md ts hg hstream hdim] at hres
            simp at hres
          · push_neg at hdim
            obtain ⟨hw, hh⟩ := hdim
            cases hmk : env.mkdirOk with
            | false =>
              rw [process_mkdir_exn env fs img d md ts hg hstream hw hh hmk] at hres
              simp at hres
            | true =>
              cases hfk : pilSaveFormatKnown
                  (pathJoin d (env.token ++
                    (splitext (secure_filename (fs.filename.getD ""))).2)) with
              | false =>
                rw [process_save_fail env fs img d md ts hg hstream hw hh hmk
                  (Or.inl hfk)] at hres
                simp at hres
              | true =>
                cases hsv : env.saveOk with
                | false =>
                  rw [process_save_fail env fs img d md ts hg hstream hw hh hmk
                    (Or.inr hsv)] at hres
                  simp at hres
                | true =>
                  rw [process_success env fs img d md ts hg hstream hw hh hmk hfk hsv] at hres
                  simp at hres
                  obtain ⟨A, hAdec, hEdot⟩ := rsplit_decomp (fs.filename.getD "")
                    (contains_dot_of_allowed _ h2)
                  rcases stored_extension_cases (fs.filename.getD "") h2 with hc | hc
                  · exfalso
                    have hta : env.token ++ "" = env.token := String.ext (by
                      rw [String.data_append, show ("" : String).data = [] from rfl,
                        List.append_nil])
                    rw [hc, hta] at hfk
                    unfold pilSaveFormatKnown at hfk
                    rw [splitext_pathJoin_dotfree d env.token htok] at hfk
                    exact absurd hfk (by decide)
                  · refine ⟨hres.1.symm, hres.2.symm, hc,
                      lower_ext_mem_of_allowed _ h2, ?_⟩
                    rw [← hres.1, hc]
                    exact allowed_file_append_ext env.token _ hEdot
                      (lower_ext_mem_of_allowed _ h2)

/-- C7, witness: the `"a.png"` upload stores under `"deadbeef.png"`, whose
extension is the original one and passes `allowed_file`. -/
theorem success_filename_allowed_ext_witness :
    ("deadbeef.png" : String) =
      envOk.token ++ (splitext (secure_filename (fsGood.filename.getD ""))).2 ∧
    (none : Option String) = none ∧
    (splitext (secure_filename (fsGood.filename.getD ""))).2 =
      String.mk ('.' :: (rsplitDot (fsGood.filename.getD "")).data) ∧
    lowerStr (rsplitDot (fsGood.filename.getD "")) ∈ ALLOWED_EXTENSIONS ∧
    allowed_file "deadbeef.png" = true :=
  success_filename_allowed_ext envOk fsGood "static/uploads" (4000, 4000) (300, 300)
    "deadbeef.png" none (by decide) rfl

/-! ## C8 — the content-type gate and the byte stream -/

/-- C8, counterexample: an input whose content type is not `image/…` but whose
filename also has a disallowed extension is rejected with the extension
message, not the content-type message. -/
theorem bad_mime_can_get_extension_error :
    (process_uploaded_image envOk (some fsTxt) "static/uploads" (4000, 4000)
        (300, 300)).1 = .ok none (some MSG_BAD_EXT) ∧
    MSG_BAD_EXT ≠ MSG_BAD_MIME :=
  ⟨rfl, by decide⟩

/-- C8, amended: once the filename checks pass, an input whose effective
content type is missing, empty, or not `image/…` is rejected with the
content-type message and no filesystem effect, identically for every byte
stream `s` — the gate reads only the claimed filename and claimed content
type, never the bytes. -/
theorem mime_gate_ignores_bytes (env : PipelineEnv) (fn ct mt : Option String)
    (s : Option DecodedImage) (d : String) (md ts : Nat × Nat)
    (h1 : blankStr (fn.getD "") = false)
    (h2 : allowed_file (fn.getD "") = true)
    (h3 : mimeOk ⟨fn, ct, mt, s⟩ = false) :
    process_uploaded_image env (some ⟨fn, ct, mt, s⟩) d md ts =
      (.ok none (some MSG_BAD_MIME), []) :=
  process_bad_mime env ⟨fn, ct, mt, s⟩ d md ts h1 h2 h3

/-- C8, witness: valid PNG bytes behind a `text/plain` declaration are still
rejected with the content-type message. -/
theorem mime_gate_ignores_bytes_witness :
    process_uploaded_image envOk
        (some ⟨some "x.png", some "text/plain", none, some ⟨50, 50, "RGB"⟩⟩)
        "static/uploads" (4000, 4000) (300, 300) =
      (.ok none (some MSG_BAD_MIME), []) :=
  mime_gate_ignores_bytes envOk (some "x.png") (some "text/plain") none
    (some ⟨50, 50, "RGB"⟩) "static/uploads" (4000, 4000) (300, 300)
    (by decide) (by decide) (by decide)

/-! ## C10 — fixed order of the rejection checks -/

/-- C10: the rejection checks apply in a fixed order — missing file, extension
allow-list, content-type, decode, dimensions — the earliest failing
check's message wins, and the dimension message is only ever returned for
inputs that decoded successfully. -/
theorem gate_order_first_error_wins (env : PipelineEnv) (fs : FileStorage)
    (d : String) (md ts : Nat × Nat) :
    (process_uploaded_image env none d md ts = (.ok none (some MSG_NO_FILE), [])) ∧
    (blankStr (fs.filename.getD "") = true →
      process_uploaded_image env (some fs) d md ts = (.ok none (some MSG_NO_FILE), [])) ∧
    (blankStr (fs.filename.getD "") = false → allowed_file (fs.filename.getD "") = false →
      process_uploaded_image env (some fs) d md ts = (.ok none (some MSG_BAD_EXT), [])) ∧
    (blankStr (fs.filename.getD "") = false → allowed_file (fs.filename.getD "") = true →
      mimeOk fs = false →
      process_uploaded_image env (some fs) d md ts = (.ok none (some MSG_BAD_MIME), [])) ∧
    (gatePass fs = true → fs.stream = none →
      process_uploaded_image env (some fs) d md ts = (.ok none (some MSG_INVALID), [])) ∧
    ((process_uploaded_image env (some fs) d md ts).1 =
        .ok none (some (sizeErrorMsg md.1 md.2)) → ∃ img, fs.stream = some img) := by
  refine ⟨process_arg_none env d md ts,
    process_blank env fs d md ts,
    process_bad_ext env fs d md ts,
    process_bad_mime env fs d md ts,
    process_decode_fail env fs d md ts, ?_⟩
  intro hres
  cases hstream : fs.stream with
  | some img => exact ⟨img, rfl⟩
  | none =>
    exfalso
    cases h1 : blankStr (fs.filename.getD "") with
    | true =>
      rw [process_blank env fs d md ts h1] at hres
      simp at hres
      exact sizeErrorMsg_ne md.1 md.2 _ (by decide) hres.symm
    | false =>
      cases h2 : allowed_file (fs.filename.getD "") with
      | false =>
        rw [process_bad_ext env fs d md ts h1 h2] at hres
        simp at hres
        exact sizeErrorMsg_ne md.1 md.2 _ (by decide) hres.symm
      | true =>
        cases h3 : mimeOk fs with
        | false =>
          rw [process_bad_mime env fs d md ts h1 h2 h3] at hres
          simp at hres
          exact sizeErrorMsg_ne md.1 md.2 _ (by decide) hres.symm
        | true =>
          have hg : gatePass fs = true := (gatePass_iff fs).mpr ⟨h1, h2, h3⟩
          rw [process_decode_fail env fs d md ts hg hstream] at hres
          simp at hres
          exact sizeErrorMsg_ne md.1 md.2 _ (by decide) hres.symm

/-- C10, witness: an input failing both the extension and the content-type
check gets the extension message. -/
theorem gate_order_first_error_wins_witness :
    process_uploaded_image envOk (some fsTxt) "static/uploads" (4000, 4000) (300, 300) =
      (.ok none (some MSG_BAD_EXT), []) :=
  (gate_order_first_error_wins envOk fsTxt "static/uploads" (4000, 4000) (300, 300)).2.2.1
    (by decide) (by decide)

/-! ## C9 — deletion cleanup is independent and non-fatal -/

/-- Joining onto a non-empty base never yields the empty path. -/
theorem pathJoin_ne_empty (a b : String) (ha : a ≠ "") : pathJoin a b ≠ "" := by
  unfold pathJoin
  split_ifs with hb hae
  · intro h0
    subst h0
    simp [pyStartsWith, headMatches] at hb
  · intro h0
    have hd := congrArg String.data h0
    rw [String.data_append] at hd
    exact ha (String.ext (List.append_eq_nil.mp hd).1)
  · intro h0
    have hd := congrArg String.data h0
    rw [String.data_append, String.data_append] at hd
    have := (List.append_eq_nil.mp (List.append_eq_nil.mp hd).1).2
    simp at this

/-- A non-empty path not in the failing set never survives its own cleanup
iteration (and an absent path trivially stays absent). -/
theorem removeStep_not_mem (removeFails fs : List String) (p : String)
    (hp : p ≠ "") (hnf : p ∉ removeFails) : p ∉ removeStep removeFails fs p := by
  intro hm
  unfold removeStep at hm
  by_cases hcond : p ≠ "" ∧ p ∈ fs
  · rw [if_pos hcond, if_neg hnf] at hm
    simp [List.mem_filter] at hm
  · rw [if_neg hcond] at hm
    exact hcond ⟨hp, hm⟩

/-- A cleanup iteration for one path leaves membership of every other path
unchanged. -/
theorem removeStep_mem_other (removeFails fs : List String) (p q : String)
    (hq : q ≠ p) : q ∈ removeStep removeFails fs p ↔ q ∈ fs := by
  unfold removeStep
  split_ifs <;> simp [List.mem_filter, hq]

/-- A cleanup iteration never adds paths. -/
theorem removeStep_subset (removeFails fs : List String) (p q : String)
    (h : q ∈ removeStep removeFails fs p) : q ∈ fs := by
  unfold removeStep at h
  split_ifs at h
  · exact h
  · exact (List.mem_filter.mp h).1
  · exact h

/-- C9: with the post row found and the requester authorized, the `delete`
route attempts removal of both `static/uploads/<filename>` and
`static/uploads/thumbs/<filename>`; each removal is independent and non-fatal —
whatever targets are absent or fail to remove, each removable present target is
gone afterwards, no unrelated path is touched, and the post-record deletion
always proceeds. -/
theorem delete_cleanup_independent (uid : Int) (uname : String) (r : PostRow)
    (removeFails fs0 : List String)
    (hauth : uid = r.user_id ∨ uname = "admin") :
    (deleteRoute uid uname (some r) removeFails fs0).1 = .deleted ∧
    (pathJoin (pathJoin "static" "uploads") r.filename ∉ removeFails →
      pathJoin (pathJoin "static" "uploads") r.filename ∉
        (deleteRoute uid uname (some r) removeFails fs0).2) ∧
    (pathJoin (pathJoin (pathJoin "static" "uploads") "thumbs") r.filename ∉ removeFails →
      pathJoin (pathJoin (pathJoin "static" "uploads") "thumbs") r.filename ∉
        (deleteRoute uid uname (some r) removeFails fs0).2) ∧
    (∀ q, q ≠ pathJoin (pathJoin "static" "uploads") r.filename →
      q ≠ pathJoin (pathJoin (pathJoin "static" "uploads") "thumbs") r.filename →
      (q ∈ (deleteRoute uid uname (some r) removeFails fs0).2 ↔ q ∈ fs0)) := by
  have hcond : ¬(uid ≠ r.user_id ∧ uname ≠ "admin") := by
    rcases hauth with h | h <;> simp [h]
  have hp1 : pathJoin (pathJoin "static" "uploads") r.filename ≠ "" :=
    pathJoin_ne_empty _ _ (by decide)
  have hp2 : pathJoin (pathJoin (pathJoin "static" "uploads") "thumbs") r.filename ≠ "" :=
    pathJoin_ne_empty _ _ (pathJoin_ne_empty _ _ (by decide))
  refine ⟨?_, ?_, ?_, ?_⟩
  · simp [deleteRoute, if_neg hcond]
  · intro hnf hmem
    simp only [deleteRoute, if_neg hcond] at hmem
    exact removeStep_not_mem removeFails fs0 _ hp1 hnf (removeStep_subset _ _ _ _ hmem)
  · intro hnf
    simp only [deleteRoute, if_neg hcond]
    exact removeStep_not_mem removeFails _ _ hp2 hnf
  · intro q hq1 hq2
    simp only [deleteRoute, if_neg hcond]
    rw [removeStep_mem_other _ _ _ _ hq2, removeStep_mem_other _ _ _ _ hq1]

/-- C9, witness: the full-size removal fails, yet the thumbnail is removed and
the record deletion proceeds. -/
theorem delete_cleanup_independent_witness :
    (deleteRoute 1 "alice" (some ⟨1, "a.png"⟩) ["static/uploads/a.png"]
      ["static/uploads/a.png", "static/uploads/thumbs/a.png"]).1 = .deleted ∧
    "static/uploads/thumbs/a.png" ∉
      (deleteRoute 1 "alice" (some ⟨1, "a.png"⟩) ["static/uploads/a.png"]
        ["static/uploads/a.png", "static/uploads/thumbs/a.png"]).2 :=
  ⟨(delete_cleanup_independent 1 "alice" ⟨1, "a.png"⟩ ["static/uploads/a.png"]
      ["static/uploads/a.png", "static/uploads/thumbs/a.png"] (Or.inl rfl)).1,
    (delete_cleanup_independent 1 "alice" ⟨1, "a.png"⟩ ["static/uploads/a.png"]
      ["static/uploads/a.png", "static/uploads/thumbs/a.png"] (Or.inl rfl)).2.2.1
      (by decide)⟩

end IllustShare
